import Mathlib

/-!
Shallow embedding of the spoor logging library.

Sources embedded: spoor.go (package spoor), filehandler/filehandler.go
(package filehandler) and the servicehandler package.  Go machine state is
passed explicitly: the global config and the logger registry become values
threaded through the operations, io.Writer values become an inductive
Writer token, the wall clock is an explicit parameter (the function
rendering the current time from a date format string), process exit and
handler dispatch become events in a trace.  Go interface{} values that can
reach the library are modelled by the GoValue inductive.
-/

namespace Spoor

/-- Go: type LogLevel int. -/
abbrev LogLevel := Int

/-- Go: DEBUG = iota (0). -/
def DEBUG : LogLevel := 0

/-- Go: INFO = 1. -/
def INFO : LogLevel := 1

/-- Go: WARNING = 2. -/
def WARNING : LogLevel := 2

/-- Go: ERROR = 3. -/
def ERROR : LogLevel := 3

/-- Go: CRITICAL = 4. -/
def CRITICAL : LogLevel := 4

/-- Go: FATAL = 5. -/
def FATAL : LogLevel := 5

/-- Go: func (loglevel LogLevel) String() string - switch over the six
constants, returning UNKNOWN for any other value. -/
def LogLevel.string (l : LogLevel) : String :=
  if l = DEBUG then "DEBUG"
  else if l = INFO then "INFO"
  else if l = WARNING then "WARNING"
  else if l = ERROR then "ERROR"
  else if l = CRITICAL then "CRITICAL"
  else if l = FATAL then "FATAL"
  else "UNKNOWN"

/-- Model of a Go io.Writer value: an identity token naming the sink. -/
inductive Writer where
  | nil : Writer
  | stderr : Writer
  | stream : Nat → Writer
  | file : String → Writer
deriving DecidableEq

/-- Model of a Go interface\x7b\x7d value as it can reach this library:
a string, an int, or an io.Writer. -/
inductive GoValue where
  | str : String → GoValue
  | int : Int → GoValue
  | writer : Writer → GoValue
deriving DecidableEq

/-- Go: type LogRecord struct - level, name, msg, args. -/
structure LogRecord where
  level : LogLevel
  name : String
  msg : String
  args : List GoValue
deriving DecidableEq

/-- Go: func NewLogRecord(level, name, msg, args...) stores its arguments
verbatim. -/
def NewLogRecord (level : LogLevel) (name : String) (msg : String)
    (args : List GoValue) : LogRecord :=
  { level := level, name := name, msg := msg, args := args }

/-- Go: func (r *LogRecord) GetLevel() LogLevel. -/
def LogRecord.GetLevel (r : LogRecord) : LogLevel :=
  r.level

/-- Go: type Formatter struct - fmt, dateFmt. -/
structure Formatter where
  fmt : String
  dateFmt : String
deriving DecidableEq

/-- Go: func NewFormatter(params ...string) - params[0] is the line
template when present, params[1] the date format when present, the Go zero
value (the empty string) otherwise. -/
def NewFormatter (params : List String) : Formatter :=
  { fmt := params.headD "", dateFmt := (params.drop 1).headD "" }

/-- Model of one verb of the Go standard library fmt.Sprintf, restricted
to the value kinds of GoValue; mismatches degrade to an inline marker,
mirroring the Go fallback markers in shape (the exact marker text is
abstracted). -/
def renderVerb (c : Char) (v : GoValue) : String :=
  if c = 's' then
    match v with
    | GoValue.str s => s
    | GoValue.int n => "%!s(int=" ++ toString n ++ ")"
    | GoValue.writer _ => "%!s(writer)"
  else if c = 'd' then
    match v with
    | GoValue.int n => toString n
    | GoValue.str s => "%!d(string=" ++ s ++ ")"
    | GoValue.writer _ => "%!d(writer)"
  else "%!" ++ String.singleton c ++ "(BADVERB)"

/-- Model of the scanning loop of fmt.Sprintf over the template characters,
returning the rendered output and the unconsumed arguments. -/
def sprintfAux : List Char → List GoValue → List Char × List GoValue
  | [], vs => ([], vs)
  | '%' :: '%' :: rest, vs =>
    let r := sprintfAux rest vs
    ('%' :: r.1, r.2)
  | '%' :: c :: rest, vs =>
    match vs with
    | [] =>
      let r := sprintfAux rest []
      (("%!" ++ String.singleton c ++ "(MISSING)").data ++ r.1, r.2)
    | v :: vs2 =>
      let r := sprintfAux rest vs2
      ((renderVerb c v).data ++ r.1, r.2)
  | ['%'], vs => ("%!(NOVERB)".data, vs)
  | c :: rest, vs =>
    let r := sprintfAux rest vs
    (c :: r.1, r.2)

/-- Model of the Go standard library fmt.Sprintf for the verbs reachable
from this library; leftover arguments produce an inline EXTRA marker as in
Go (marker text abstracted). -/
def sprintf (format : String) (args : List GoValue) : String :=
  let r := sprintfAux format.data args
  if r.2.isEmpty then String.mk r.1 else String.mk r.1 ++ "%!(EXTRA)"

/-- pat is a leading pattern of s. -/
def startsWith : List Char → List Char → Bool
  | _, [] => true
  | [], _ :: _ => false
  | c :: s, p :: ps => c == p && startsWith s ps

/-- pat occurs somewhere inside s. -/
def hasOccurrence (pat : List Char) : List Char → Bool
  | [] => startsWith [] pat
  | c :: rest => startsWith (c :: rest) pat || hasOccurrence pat rest

/-- Model of the Go standard library strings.Replace(s, old, new, 1):
replace the first occurrence of old only, scanning left to right in one
pass, never rescanning the substituted text. -/
def replaceFirst (s old new : List Char) : List Char :=
  match s with
  | [] => if old = [] then new else []
  | c :: rest =>
    if startsWith (c :: rest) old then new ++ List.drop old.length (c :: rest)
    else c :: replaceFirst rest old new

/-- strings.Replace with count 1 lifted to String. -/
def replaceFirstS (s old new : String) : String :=
  String.mk (replaceFirst s.data old.data new.data)

/-- Go: func (f *Formatter) Format(logRecord *LogRecord) string.  The wall
clock is the explicit parameter now: now applied to a date format string
is the rendered current time (time.Now().Format(f.dateFmt)). -/
def Formatter.Format (f : Formatter) (now : String → String)
    (r : LogRecord) : String :=
  let msg := if r.args.length > 0 then sprintf r.msg r.args else r.msg
  let s1 := replaceFirstS f.fmt "{levelname}" (LogLevel.string r.level)
  let s2 := replaceFirstS s1 "{message}" msg
  replaceFirstS s2 "{asctime}" (now f.dateFmt)

/-- Go: the package level config struct - filename, filemode, format,
datefmt, level, stream.  The stream field is an io.Writer whose Go zero
value nil is Option.none here. -/
structure Config where
  filename : String
  filemode : String
  format : String
  datefmt : String
  level : LogLevel
  stream : Option Writer
deriving DecidableEq

/-- Go: the initializer of the config variable - level INFO, the default
line template and date format, everything else the zero value. -/
def initialConfig : Config :=
  { filename := "", filemode := "", format := "{levelname}: {asctime} - {message}",
    datefmt := "2006-01-02 15:04:05", level := INFO, stream := none }

/-- Go: type LogHandler struct - level, formatter, logger (the io.Writer
sink).  After new(LogHandler) the sink is nil. -/
structure LogHandler where
  level : LogLevel
  formatter : Formatter
  logger : Writer
deriving DecidableEq

/-- Go: func NewLogHandler() *LogHandler - new(LogHandler) leaves the sink
nil, then SetLevel(config.level) and SetFormatter(NewFormatter(
config.format, config.datefmt)) read the global config current at the
call; here that config is the explicit argument. -/
def NewLogHandler (cfg : Config) : LogHandler :=
  { level := cfg.level, formatter := NewFormatter [cfg.format, cfg.datefmt],
    logger := Writer.nil }

/-- Go: func (h *LogHandler) GetLevel() LogLevel. -/
def LogHandler.GetLevel (h : LogHandler) : LogLevel :=
  h.level

/-- Go: func (h *LogHandler) SetLevel(level LogLevel). -/
def LogHandler.SetLevel (h : LogHandler) (level : LogLevel) : LogHandler :=
  { h with level := level }

/-- Go: func (h *LogHandler) GetFormatter() *Formatter. -/
def LogHandler.GetFormatter (h : LogHandler) : Formatter :=
  h.formatter

/-- Go: func (h *LogHandler) SetFormatter(formatter *Formatter). -/
def LogHandler.SetFormatter (h : LogHandler) (formatter : Formatter) : LogHandler :=
  { h with formatter := formatter }

/-- Go: func (h *LogHandler) Format(logRecord *LogRecord) string -
delegates to the owned formatter. -/
def LogHandler.Format (h : LogHandler) (now : String → String)
    (r : LogRecord) : String :=
  Formatter.Format h.formatter now r

/-- Go: func (h *LogHandler) Emit(logRecord *LogRecord) -
fmt.Fprintln(h.logger, h.Format(logRecord)): the write performed, as the
target sink and the line including the trailing newline. -/
def LogHandler.Emit (h : LogHandler) (now : String → String)
    (r : LogRecord) : Writer × String :=
  (h.logger, LogHandler.Format h now r ++ "\n")

/-- Go: func (h *LogHandler) Handle(logRecord *LogRecord) - calls
h.Emit(logRecord). -/
def LogHandler.Handle (h : LogHandler) (now : String → String)
    (r : LogRecord) : Writer × String :=
  LogHandler.Emit h now r

/-- Go: type StreamHandler struct - embeds LogHandler. -/
structure StreamHandler where
  toLogHandler : LogHandler
deriving DecidableEq

/-- Go: func NewStreamHandler(stream ...io.Writer) - sink defaults to
os.Stderr, otherwise stream[0]; the embedded LogHandler comes from
NewLogHandler() and then its sink is overwritten. -/
def NewStreamHandler (cfg : Config) (stream : List Writer) : StreamHandler :=
  let handlerStream := stream.headD Writer.stderr
  { toLogHandler := { NewLogHandler cfg with logger := handlerStream } }

/-- Go (filehandler.go): type FileHandler struct - embeds StreamHandler
and stores filename and mode for introspection. -/
structure FileHandler where
  toStreamHandler : StreamHandler
  filename : String
  mode : String
deriving DecidableEq

/-- Go (filehandler.go): func NewFileHandler(filename, mode string) -
opens the file with os.O_CREATE, os.O_WRONLY, os.O_APPEND and hands the
resulting writer to NewStreamHandler. -/
def NewFileHandler (cfg : Config) (filename : String) (mode : String) : FileHandler :=
  { toStreamHandler := NewStreamHandler cfg [Writer.file filename],
    filename := filename, mode := mode }

/-- Model of a Go service.Service value: an identity token. -/
abbrev Service := Nat

/-- Go (servicehandler): type ServiceHandler struct - embeds
spoor.LogHandler and stores the service. -/
structure ServiceHandler where
  toLogHandler : LogHandler
  service : Service
deriving DecidableEq

/-- Go (servicehandler): func NewServiceHandler(service service.Service) -
stores the service and embeds *spoor.NewLogHandler(). -/
def NewServiceHandler (cfg : Config) (svc : Service) : ServiceHandler :=
  { toLogHandler := NewLogHandler cfg, service := svc }

/-- One call on the package level service.Logger of the servicehandler
package: the severity operation chosen and the line passed to it. -/
inductive ServiceCall where
  | warning : String → ServiceCall
  | error : String → ServiceCall
  | info : String → ServiceCall
deriving DecidableEq

/-- Go (servicehandler): func (h *ServiceHandler) Emit(logRecord) -
formats the record, then a switch on logRecord.GetLevel() picks
logger.Warning for WARNING, logger.Error for ERROR and logger.Info for
every other level. -/
def ServiceHandler.Emit (h : ServiceHandler) (now : String → String)
    (r : LogRecord) : ServiceCall :=
  let msg := LogHandler.Format h.toLogHandler now r
  if LogRecord.GetLevel r = WARNING then ServiceCall.warning msg
  else if LogRecord.GetLevel r = ERROR then ServiceCall.error msg
  else ServiceCall.info msg

/-- Go (servicehandler): func (h *ServiceHandler) Handle(logRecord) -
calls h.Emit(logRecord). -/
def ServiceHandler.Handle (h : ServiceHandler) (now : String → String)
    (r : LogRecord) : ServiceCall :=
  ServiceHandler.Emit h now r

/-- A value of the Go interface ILogHandler: one of the concrete handler
kinds of the repository. -/
inductive IHandler where
  | base : LogHandler → IHandler
  | stream : StreamHandler → IHandler
  | file : FileHandler → IHandler
  | service : ServiceHandler → IHandler
deriving DecidableEq

/-- Dynamic dispatch of GetLevel(): every variant inherits
LogHandler.GetLevel from the embedded LogHandler. -/
def IHandler.GetLevel : IHandler → LogLevel
  | IHandler.base h => LogHandler.GetLevel h
  | IHandler.stream h => LogHandler.GetLevel h.toLogHandler
  | IHandler.file h => LogHandler.GetLevel h.toStreamHandler.toLogHandler
  | IHandler.service h => LogHandler.GetLevel h.toLogHandler

/-- Go: type Logger struct - level, name, handlers. -/
structure Logger where
  level : LogLevel
  name : String
  handlers : List IHandler
deriving DecidableEq

/-- Go: func NewLogger(name string) - new(Logger) (level zero value 0),
the name, an empty handler slice. -/
def NewLogger (name : String) : Logger :=
  { level := 0, name := name, handlers := [] }

/-- Go: func (l *Logger) GetName() string. -/
def Logger.GetName (l : Logger) : String :=
  l.name

/-- Go: func (l *Logger) SetLevel(level LogLevel). -/
def Logger.SetLevel (l : Logger) (level : LogLevel) : Logger :=
  { l with level := level }

/-- Go: func (l *Logger) AddHandler(handler ILogHandler) - append. -/
def Logger.AddHandler (l : Logger) (h : IHandler) : Logger :=
  { l with handlers := l.handlers ++ [h] }

/-- One observable event of Logger.Log: a call handler.Handle(record), or
the process termination os.Exit(code). -/
inductive Event where
  | handle : IHandler → LogRecord → Event
  | osExit : Nat → Event
deriving DecidableEq

/-- The for loop of Logger.Log: visit the handlers in slice order and call
Handle on each whose gate level less or equal record level passes (Go:
if level >= handler.GetLevel()). -/
def logLoop (level : LogLevel) (r : LogRecord) : List IHandler → List Event
  | [] => []
  | h :: rest =>
    (if IHandler.GetLevel h ≤ level then [Event.handle h r] else [])
      ++ logLoop level r rest

/-- Go: func (l *Logger) Log(level, msg, args...) - build one record, run
the handler loop, then os.Exit(1) when level == FATAL.  The result is the
trace of events in execution order. -/
def Logger.Log (l : Logger) (level : LogLevel) (msg : String)
    (args : List GoValue) : List Event :=
  let r := NewLogRecord level l.name msg args
  logLoop level r l.handlers ++ (if level = FATAL then [Event.osExit 1] else [])

/-- Go: func (l *Logger) Debug(msg, args...). -/
def Logger.Debug (l : Logger) (msg : String) (args : List GoValue) : List Event :=
  Logger.Log l DEBUG msg args

/-- Go: func (l *Logger) Info(msg, args...). -/
def Logger.Info (l : Logger) (msg : String) (args : List GoValue) : List Event :=
  Logger.Log l INFO msg args

/-- Go: func (l *Logger) Warn(msg, args...). -/
def Logger.Warn (l : Logger) (msg : String) (args : List GoValue) : List Event :=
  Logger.Log l WARNING msg args

/-- Go: func (l *Logger) Error(msg, args...). -/
def Logger.Error (l : Logger) (msg : String) (args : List GoValue) : List Event :=
  Logger.Log l ERROR msg args

/-- Go: func (l *Logger) Critical(msg, args...). -/
def Logger.Critical (l : Logger) (msg : String) (args : List GoValue) : List Event :=
  Logger.Log l CRITICAL msg args

/-- Go: func (l *Logger) Fatal(msg, args...). -/
def Logger.Fatal (l : Logger) (msg : String) (args : List GoValue) : List Event :=
  Logger.Log l FATAL msg args

/-- The handlers whose Handle was called, in call order. -/
def handleTargets (tr : List Event) : List IHandler :=
  tr.filterMap fun e =>
    match e with
    | Event.handle h _ => some h
    | Event.osExit _ => none

/-- Go: the package level loggers variable - the name to Logger map,
modelled as an association list looked up by key. -/
structure Registry where
  items : List (String × Logger)
deriving DecidableEq

/-- Lookup in the name to Logger map. -/
def mapLookup (name : String) : List (String × Logger) → Option Logger
  | [] => none
  | (k, v) :: rest => if k = name then some v else mapLookup name rest

/-- Go: func GetLogger(loggername ...string) *Logger - name defaults to
root unless exactly one name is passed; look up under the lock, create and
store on a miss.  Returns the logger and the registry after the call. -/
def GetLogger (st : Registry) (loggername : List String) : Logger × Registry :=
  let name := if loggername.length = 1 then loggername.headD "root" else "root"
  match mapLookup name st.items with
  | some lg => (lg, st)
  | none =>
    let lg := NewLogger name
    (lg, { items := st.items ++ [(name, lg)] })

/-- Model of the Go standard library strings.ToLower restricted to the
ASCII keys reaching it here: char wise lowering (structural, so the kernel
can evaluate it). -/
def lowerString (s : String) : String :=
  String.mk (s.data.map Char.toLower)

/-- Go panic on a failed type assertion value.(string): Except models the
panic as an error. -/
def assertString : GoValue → Except String String
  | GoValue.str s => Except.ok s
  | _ => Except.error "interface conversion"

/-- Go panic on a failed type assertion value.(io.Writer). -/
def assertWriter : GoValue → Except String Writer
  | GoValue.writer w => Except.ok w
  | _ => Except.error "interface conversion"

/-- One iteration of the BasicConfig loop: lower the key, switch over the
five recognized keys, assert the value type and overwrite the field;
unrecognized keys fall through unchanged. -/
def setConfigEntry (cfg : Config) (k : String) (v : GoValue) : Except String Config :=
  let key := lowerString k
  if key = "filename" then (assertString v).map fun s => { cfg with filename := s }
  else if key = "filemode" then (assertString v).map fun s => { cfg with filemode := s }
  else if key = "format" then (assertString v).map fun s => { cfg with format := s }
  else if key = "datefmt" then (assertString v).map fun s => { cfg with datefmt := s }
  else if key = "stream" then (assertWriter v).map fun w => { cfg with stream := some w }
  else Except.ok cfg

/-- Go: func BasicConfig(conf map[string]interface\x7b\x7d) - iterate the
entries (the list fixes one iteration order of the Go map) updating the
config; a failed type assertion panics, modelled by Except.error. -/
def BasicConfig (cfg : Config) (conf : List (String × GoValue)) : Except String Config :=
  conf.foldlM (fun c kv => setConfigEntry c kv.1 kv.2) cfg

/-- The package level mutable state touched by handler construction and
BasicConfig: the global config and the handlers constructed so far. -/
structure World where
  config : Config
  handlers : List IHandler
deriving DecidableEq

/-- NewLogHandler as a step on the package state: reads the current
config, appends the constructed handler. -/
def newLogHandlerStep (w : World) : LogHandler × World :=
  let h := NewLogHandler w.config
  (h, { w with handlers := w.handlers ++ [IHandler.base h] })

/-- BasicConfig as a step on the package state. -/
def basicConfigStep (w : World) (conf : List (String × GoValue)) : Except String World :=
  (BasicConfig w.config conf).map fun c => { w with config := c }

/-- The four recognized keys whose value is asserted to be a string. -/
def isStringKey (key : String) : Bool :=
  key == "filename" || key == "filemode" || key == "format" || key == "datefmt"

/-- The value carries a Go string. -/
def GoValue.isStr : GoValue → Bool
  | GoValue.str _ => true
  | _ => false

/-- The value carries a Go io.Writer. -/
def GoValue.isWriter : GoValue → Bool
  | GoValue.writer _ => true
  | _ => false

/-- Every recognized key of the mapping carries a value of the dynamic
type its type assertion in BasicConfig expects. -/
abbrev wellTypedConf (conf : List (String × GoValue)) : Prop :=
  ∀ kv ∈ conf,
    (isStringKey (lowerString kv.1) = true → GoValue.isStr kv.2 = true)
      ∧ (lowerString kv.1 = "stream" → GoValue.isWriter kv.2 = true)

/-- The severity operation a ServiceCall uses, forgetting the line. -/
def severityTag : ServiceCall → Nat
  | ServiceCall.warning _ => 0
  | ServiceCall.error _ => 1
  | ServiceCall.info _ => 2

/-- Fixture: a wall clock rendering every date format as a fixed day. -/
def constNow : String → String :=
  fun _ => "2026-01-01"

/-- Fixture: a handler accepting everything (threshold DEBUG). -/
def hLow : IHandler :=
  IHandler.base { level := DEBUG, formatter := NewFormatter ["{message}", ""],
                  logger := Writer.stderr }

/-- Fixture: a handler whose threshold 6 is above every named level. -/
def hHigh : IHandler :=
  IHandler.base { level := 6, formatter := NewFormatter ["{message}", ""],
                  logger := Writer.nil }

/-- Fixture: a logger holding both fixture handlers. -/
def sampleLogger : Logger :=
  { level := 0, name := "app", handlers := [hLow, hHigh] }

/-- Fixture: the sample logger with its own level raised to 9. -/
def sampleLoggerHigh : Logger :=
  { level := 9, name := "app", handlers := [hLow, hHigh] }

/-- Fixture: a package state holding one already constructed handler. -/
def sampleWorld : World :=
  { config := initialConfig, handlers := [IHandler.base (NewLogHandler initialConfig)] }

/-- Fixture: a service handler over the initial config. -/
def svcHandler : ServiceHandler :=
  { toLogHandler := NewLogHandler initialConfig, service := 7 }

/-- Fixture: a well typed BasicConfig mapping exercising a recognized key
in mixed case and the stream key. -/
def sampleConf : List (String × GoValue) :=
  [("FORMAT", GoValue.str "{message}"), ("stream", GoValue.writer Writer.stderr)]

/-- Fixture: the initial config with the line template overwritten. -/
def configX : Config :=
  { filename := "", filemode := "", format := "X",
    datefmt := "2006-01-02 15:04:05", level := INFO, stream := none }

/-- Fixture: the sample world after BasicConfig overwrote the template. -/
def sampleWorldX : World :=
  { config := configX, handlers := sampleWorld.handlers }

/-- startsWith is the leading decomposition. -/
theorem startsWith_iff_append (s pat : List Char) :
    startsWith s pat = true ↔ ∃ t, s = pat ++ t := by
  induction pat generalizing s with
  | nil =>
    cases s <;> simp [startsWith]
  | cons p ps ih =>
    cases s with
    | nil => simp [startsWith]
    | cons c s2 =>
      simp only [startsWith, Bool.and_eq_true, beq_iff_eq, List.cons_append,
        List.cons.injEq]
      constructor
      · rintro ⟨hc, hs⟩
        obtain ⟨t, ht⟩ := (ih s2).mp hs
        exact ⟨t, hc, ht⟩
      · rintro ⟨t, hc, ht⟩
        exact ⟨hc, (ih s2).mpr ⟨t, ht⟩⟩

/-- Dropping the length of a leading block removes exactly it. -/
theorem drop_len_append (p t : List Char) :
    List.drop p.length (p ++ t) = t := by
  induction p with
  | nil => rfl
  | cons a p ih =>
    simp only [List.length_cons, List.cons_append, List.drop_succ_cons]
    exact ih

/-- A pattern that occurs nowhere leaves replaceFirst as the identity. -/
theorem replaceFirst_no_occurrence (s pat new : List Char)
    (h : hasOccurrence pat s = false) : replaceFirst s pat new = s := by
  induction s with
  | nil =>
    simp only [hasOccurrence] at h
    cases pat with
    | nil => simp [startsWith] at h
    | cons p ps => simp [replaceFirst]
  | cons c rest ih =>
    simp only [hasOccurrence, Bool.or_eq_false_iff] at h
    obtain ⟨h1, h2⟩ := h
    simp only [replaceFirst, h1, Bool.false_eq_true, if_false]
    rw [ih h2]

/-- When the pattern occurs, replaceFirst rewrites exactly the leftmost
occurrence: the part before it is untouched, the part after it - which may
itself contain the pattern, as may the replacement text - is never
rescanned. -/
theorem replaceFirst_first_occurrence (s pat new : List Char)
    (hpat : pat ≠ []) (h : hasOccurrence pat s = true) :
    ∃ p q, s = p ++ pat ++ q
      ∧ (∀ u v, u ++ pat ++ v = s → p.length ≤ u.length)
      ∧ replaceFirst s pat new = p ++ new ++ q := by
  induction s with
  | nil =>
    simp only [hasOccurrence] at h
    cases pat with
    | nil => exact absurd rfl hpat
    | cons p ps => simp [startsWith] at h
  | cons c rest ih =>
    by_cases hs : startsWith (c :: rest) pat = true
    · obtain ⟨t, ht⟩ := (startsWith_iff_append _ _).mp hs
      refine ⟨[], t, by simpa using ht, fun u v _ => by simp, ?_⟩
      simp only [replaceFirst, hs, if_true]
      rw [ht, drop_len_append]
      simp
    · have hs0 : startsWith (c :: rest) pat = false := by
        simpa using hs
      have hs2 : hasOccurrence pat rest = true := by
        simp only [hasOccurrence, hs0, Bool.false_or] at h
        exact h
      obtain ⟨p, q, h1, hmin, h2⟩ := ih hs2
      refine ⟨c :: p, q, by simp [h1], ?_, ?_⟩
      · intro u v huv
        cases u with
        | nil =>
          exact absurd ((startsWith_iff_append _ _).mpr ⟨v, by simpa using huv.symm⟩) hs
        | cons a u2 =>
          simp only [List.cons_append, List.cons.injEq] at huv
          simp only [List.length_cons]
          exact Nat.succ_le_succ (hmin u2 v huv.2)
      · simp only [replaceFirst, hs0, Bool.false_eq_true, if_false, h2]
        simp

/-- Every event the handler loop emits is a Handle call on the record. -/
theorem logLoop_shape (level : LogLevel) (r : LogRecord) (hs : List IHandler) :
    ∀ e ∈ logLoop level r hs, ∃ h, e = Event.handle h r := by
  induction hs with
  | nil => simp [logLoop]
  | cons a rest ih =>
    intro e he
    by_cases hg : IHandler.GetLevel a ≤ level
    · simp only [logLoop, if_pos hg, List.singleton_append, List.mem_cons] at he
      rcases he with he | he
      · exact ⟨a, he⟩
      · exact ih e he
    · simp only [logLoop, if_neg hg, List.nil_append] at he
      exact ih e he

/-- Membership in the handler loop trace is exactly the per handler level
gate of Logger.Log. -/
theorem logLoop_mem (level : LogLevel) (r : LogRecord) (hs : List IHandler)
    (h : IHandler) :
    Event.handle h r ∈ logLoop level r hs
      ↔ h ∈ hs ∧ IHandler.GetLevel h ≤ level := by
  induction hs with
  | nil => simp [logLoop]
  | cons a rest ih =>
    by_cases hg : IHandler.GetLevel a ≤ level
    · simp only [logLoop, if_pos hg, List.singleton_append, List.mem_cons]
      constructor
      · intro hmem
        rcases hmem with heq | hmem2
        · injection heq with e1 e2
          subst e1
          exact ⟨Or.inl rfl, hg⟩
        · obtain ⟨hm, hg2⟩ := (ih).mp hmem2
          exact ⟨Or.inr hm, hg2⟩
      · rintro ⟨hm | hm, hg2⟩
        · subst hm
          exact Or.inl rfl
        · exact Or.inr ((ih).mpr ⟨hm, hg2⟩)
    · simp only [logLoop, if_neg hg, List.nil_append, ih, List.mem_cons]
      constructor
      · rintro ⟨hm, hg2⟩
        exact ⟨Or.inr hm, hg2⟩
      · rintro ⟨hm | hm, hg2⟩
        · subst hm
          exact absurd hg2 hg
        · exact ⟨hm, hg2⟩

/-- handleTargets distributes over trace concatenation. -/
theorem handleTargets_append (a b : List Event) :
    handleTargets (a ++ b) = handleTargets a ++ handleTargets b := by
  simp [handleTargets, List.filterMap_append]

/-- The handlers visited by the loop are the gated sublist of the handler
slice, in slice order. -/
theorem logLoop_targets (level : LogLevel) (r : LogRecord) (hs : List IHandler) :
    handleTargets (logLoop level r hs)
      = hs.filter (fun h => decide (IHandler.GetLevel h ≤ level)) := by
  induction hs with
  | nil => rfl
  | cons a rest ih =>
    simp only [logLoop]
    rw [handleTargets_append, ih, List.filter_cons]
    by_cases hg : IHandler.GetLevel a ≤ level
    · rw [if_pos hg, decide_eq_true hg]
      rfl
    · rw [if_neg hg, decide_eq_false hg]
      rfl

/-- The handler loop never contains a process exit. -/
theorem logLoop_no_exit (level : LogLevel) (r : LogRecord) (hs : List IHandler)
    (c : Nat) : Event.osExit c ∉ logLoop level r hs := by
  intro hmem
  obtain ⟨h, he⟩ := logLoop_shape level r hs _ hmem
  exact Event.noConfusion he

/-- The exit part of the Log trace contributes no Handle target. -/
theorem handleTargets_exitPart (level : LogLevel) :
    handleTargets (if level = FATAL then [Event.osExit 1] else []) = [] := by
  by_cases h : level = FATAL <;> simp [h, handleTargets]

/-- Appending map entries cannot shadow a key absent from the front. -/
theorem mapLookup_append_none (l1 l2 : List (String × Logger)) (a : String)
    (h : mapLookup a l1 = none) :
    mapLookup a (l1 ++ l2) = mapLookup a l2 := by
  induction l1 with
  | nil => rfl
  | cons kv t ih =>
    obtain ⟨k, v⟩ := kv
    by_cases hk : k = a
    · simp [mapLookup, hk] at h
    · simp only [mapLookup, hk, if_false, List.cons_append] at h ⊢
      exact ih h

/-- A key that looks up to none heads no entry of the map. -/
theorem mapLookup_none_keys (l : List (String × Logger)) (a : String)
    (h : mapLookup a l = none) : ∀ p ∈ l, p.1 ≠ a := by
  induction l with
  | nil => simp
  | cons kv t ih =>
    obtain ⟨k, v⟩ := kv
    by_cases hk : k = a
    · simp [mapLookup, hk] at h
    · intro p hp
      rcases List.mem_cons.mp hp with hp | hp
      · subst hp
        exact hk
      · simp only [mapLookup, hk, if_false] at h
        exact ih h p hp

/-- A well typed entry never fails its type assertion. -/
theorem setConfigEntry_ok (cfg : Config) (k : String) (v : GoValue)
    (h1 : isStringKey (lowerString k) = true → GoValue.isStr v = true)
    (h2 : lowerString k = "stream" → GoValue.isWriter v = true) :
    ∃ c2, setConfigEntry cfg k v = Except.ok c2 := by
  unfold setConfigEntry
  by_cases ha : lowerString k = "filename"
  · obtain ⟨s, hs⟩ : ∃ s, v = GoValue.str s := by
      have := h1 (by simp [isStringKey, ha])
      cases v <;> simp_all [GoValue.isStr]
    subst hs
    exact ⟨{ cfg with filename := s }, by simp [ha, assertString, Except.map]⟩
  · by_cases hb : lowerString k = "filemode"
    · obtain ⟨s, hs⟩ : ∃ s, v = GoValue.str s := by
        have := h1 (by simp [isStringKey, hb])
        cases v <;> simp_all [GoValue.isStr]
      subst hs
      exact ⟨{ cfg with filemode := s }, by simp [ha, hb, assertString, Except.map]⟩
    · by_cases hc : lowerString k = "format"
      · obtain ⟨s, hs⟩ : ∃ s, v = GoValue.str s := by
          have := h1 (by simp [isStringKey, hc])
          cases v <;> simp_all [GoValue.isStr]
        subst hs
        exact ⟨{ cfg with format := s }, by simp [ha, hb, hc, assertString, Except.map]⟩
      · by_cases hd : lowerString k = "datefmt"
        · obtain ⟨s, hs⟩ : ∃ s, v = GoValue.str s := by
            have := h1 (by simp [isStringKey, hd])
            cases v <;> simp_all [GoValue.isStr]
          subst hs
          exact ⟨{ cfg with datefmt := s }, by simp [ha, hb, hc, hd, assertString, Except.map]⟩
        · by_cases he : lowerString k = "stream"
          · obtain ⟨w, hw⟩ : ∃ w, v = GoValue.writer w := by
              have := h2 he
              cases v <;> simp_all [GoValue.isWriter]
            subst hw
            exact ⟨{ cfg with stream := some w }, by simp [ha, hb, hc, hd, he, assertWriter, Except.map]⟩
          · exact ⟨cfg, by simp [ha, hb, hc, hd, he]⟩

/-- A fully well typed mapping is processed without failure. -/
theorem basicConfig_wellTyped (conf : List (String × GoValue))
    (h : wellTypedConf conf) :
    ∀ cfg, ∃ c2, BasicConfig cfg conf = Except.ok c2 := by
  induction conf with
  | nil => exact fun cfg => ⟨cfg, rfl⟩
  | cons kv rest ih =>
    intro cfg
    have hkv := h kv (List.mem_cons_self _ _)
    have hrest : wellTypedConf rest := fun p hp => h p (List.mem_cons_of_mem _ hp)
    obtain ⟨c1, hc1⟩ := setConfigEntry_ok cfg kv.1 kv.2 hkv.1 hkv.2
    obtain ⟨c2, hc2⟩ := ih hrest c1
    refine ⟨c2, ?_⟩
    simp only [BasicConfig, List.foldlM_cons, hc1]
    simpa [BasicConfig] using hc2

/-- C1: Logger.Log builds one record and delivers it to an attached
handler (calls its Handle) iff the record level is at least that handler
threshold; the handlers are visited in the order AddHandler appended
them. -/
theorem c1_log_gate_and_order (l : Logger) (level : LogLevel) (msg : String)
    (args : List GoValue) :
    (∀ h : IHandler,
        Event.handle h (NewLogRecord level l.name msg args)
            ∈ Logger.Log l level msg args
          ↔ h ∈ l.handlers ∧ IHandler.GetLevel h ≤ level)
    ∧ handleTargets (Logger.Log l level msg args)
        = l.handlers.filter (fun h => decide (IHandler.GetLevel h ≤ level))
    ∧ (∀ h : IHandler,
        handleTargets (Logger.Log (Logger.AddHandler l h) level msg args)
          = handleTargets (Logger.Log l level msg args)
              ++ (if IHandler.GetLevel h ≤ level then [h] else [])) := by
  refine ⟨?_, ?_, ?_⟩
  · intro h
    simp only [Logger.Log]
    constructor
    · intro hm
      rcases List.mem_append.mp hm with hm | hm
      · exact (logLoop_mem level _ l.handlers h).mp hm
      · exfalso
        by_cases hf : level = FATAL
        · rw [if_pos hf] at hm
          simp at hm
        · rw [if_neg hf] at hm
          simp at hm
    · intro hm
      exact List.mem_append.mpr (Or.inl ((logLoop_mem level _ l.handlers h).mpr hm))
  · simp only [Logger.Log]
    rw [handleTargets_append, logLoop_targets, handleTargets_exitPart, List.append_nil]
  · intro h
    simp only [Logger.Log, Logger.AddHandler]
    rw [handleTargets_append, logLoop_targets, handleTargets_exitPart, List.append_nil,
      handleTargets_append, logLoop_targets, handleTargets_exitPart, List.append_nil,
      List.filter_append]
    by_cases hg : IHandler.GetLevel h ≤ level
    · rw [if_pos hg]
      simp [List.filter, decide_eq_true hg]
    · rw [if_neg hg]
      simp [List.filter, decide_eq_false hg]

/-- C2: a FATAL Log call (also via the Fatal wrapper) first delivers the
record to every attached handler passing its gate, and only after the
whole handler loop does the trace end in the unconditional process exit
with the nonzero status 1; no other level ever produces an exit event. -/
theorem c2_fatal_exits_after_handlers (l : Logger) (msg : String)
    (args : List GoValue) :
    Logger.Fatal l msg args = Logger.Log l FATAL msg args
    ∧ (Logger.Fatal l msg args).getLast? = some (Event.osExit 1)
    ∧ (∀ e ∈ (Logger.Fatal l msg args).dropLast,
        ∃ h, e = Event.handle h (NewLogRecord FATAL l.name msg args))
    ∧ (∀ h ∈ l.handlers, IHandler.GetLevel h ≤ FATAL →
        Event.handle h (NewLogRecord FATAL l.name msg args)
          ∈ (Logger.Fatal l msg args).dropLast)
    ∧ (∀ level : LogLevel, level ≠ FATAL → ∀ c : Nat,
        Event.osExit c ∉ Logger.Log l level msg args) := by
  have hfl : Logger.Fatal l msg args
      = logLoop FATAL (NewLogRecord FATAL l.name msg args) l.handlers
          ++ [Event.osExit 1] := by
    simp [Logger.Fatal, Logger.Log]
  refine ⟨rfl, ?_, ?_, ?_, ?_⟩
  · rw [hfl, List.getLast?_concat]
  · rw [hfl, List.dropLast_concat]
    exact logLoop_shape FATAL _ l.handlers
  · intro h hm hg
    rw [hfl, List.dropLast_concat]
    exact (logLoop_mem FATAL _ l.handlers h).mpr ⟨hm, hg⟩
  · intro level hne c hmem
    simp only [Logger.Log, if_neg hne, List.append_nil] at hmem
    exact logLoop_no_exit level _ l.handlers c hmem

/-- C2 witness: on the sample logger a Fatal call ends in the exit event,
the low threshold handler got the record before it, and a CRITICAL call
never exits. -/
theorem c2_witness :
    (Logger.Fatal sampleLogger "m" []).getLast? = some (Event.osExit 1)
    ∧ Event.handle hLow (NewLogRecord FATAL "app" "m" [])
        ∈ (Logger.Fatal sampleLogger "m" []).dropLast
    ∧ Event.osExit 1 ∉ Logger.Log sampleLogger CRITICAL "m" [] :=
  ⟨(c2_fatal_exits_after_handlers sampleLogger "m" []).2.1,
    (c2_fatal_exits_after_handlers sampleLogger "m" []).2.2.2.1 hLow
      (by decide) (by decide),
    (c2_fatal_exits_after_handlers sampleLogger "m" []).2.2.2.2 CRITICAL
      (by decide) 1⟩

/-- C3: GetLogger is idempotent per name - the second call returns the
stored logger and leaves the registry unchanged - the no argument call
equals the root call, entries are never removed, and distinct names keep
at most one logger each. -/
theorem c3_getlogger_registry (st : Registry) (x : String) :
    (GetLogger (GetLogger st [x]).2 [x]).1 = (GetLogger st [x]).1
    ∧ (GetLogger (GetLogger st [x]).2 [x]).2 = (GetLogger st [x]).2
    ∧ GetLogger st [] = GetLogger st ["root"]
    ∧ (∀ p ∈ st.items, p ∈ (GetLogger st [x]).2.items)
    ∧ ((st.items.map Prod.fst).Nodup
        → ((GetLogger st [x]).2.items.map Prod.fst).Nodup) := by
  have hroot : GetLogger st [] = GetLogger st ["root"] := rfl
  cases hl : mapLookup x st.items with
  | some lg =>
    have h1 : GetLogger st [x] = (lg, st) := by
      simp [GetLogger, hl]
    refine ⟨?_, ?_, hroot, ?_, ?_⟩
    · simp [h1]
    · simp [h1]
    · intro p hp
      simpa [h1] using hp
    · intro nd
      simpa [h1] using nd
  | none =>
    have h1 : GetLogger st [x]
        = (NewLogger x, { items := st.items ++ [(x, NewLogger x)] }) := by
      simp [GetLogger, hl]
    have h2 : mapLookup x (st.items ++ [(x, NewLogger x)]) = some (NewLogger x) := by
      rw [mapLookup_append_none st.items _ x hl]
      simp [mapLookup]
    have h3 : GetLogger { items := st.items ++ [(x, NewLogger x)] } [x]
        = (NewLogger x, { items := st.items ++ [(x, NewLogger x)] }) := by
      simp [GetLogger, h2]
    have e1 : (GetLogger st [x]).1 = NewLogger x := by rw [h1]
    have e2 : (GetLogger st [x]).2
        = ({ items := st.items ++ [(x, NewLogger x)] } : Registry) := by rw [h1]
    refine ⟨?_, ?_, hroot, ?_, ?_⟩
    · rw [e2, h3, e1]
    · rw [e2, h3]
    · intro p hp
      rw [e2]
      exact List.mem_append_left _ hp
    · intro nd
      rw [e2]
      have hnotin : ∀ p ∈ st.items, p.1 ≠ x := mapLookup_none_keys st.items x hl
      show ((st.items ++ [(x, NewLogger x)]).map Prod.fst).Nodup
      rw [List.map_append]
      refine List.Nodup.append nd (List.nodup_singleton x) ?_
      intro b hb1 hb2
      rw [List.map_singleton, List.mem_singleton] at hb2
      subst hb2
      obtain ⟨p, hp, hpb⟩ := List.mem_map.mp hb1
      exact absurd hpb (hnotin p hp)

/-- C3 witness: on the empty registry the second call for the name a
returns the first logger, no argument equals root, and the keys stay
without duplicates. -/
theorem c3_witness :
    (GetLogger (GetLogger { items := [] } ["a"]).2 ["a"]).1
        = (GetLogger { items := [] } ["a"]).1
    ∧ GetLogger { items := [] } [] = GetLogger { items := [] } ["root"]
    ∧ ((GetLogger { items := [] } ["a"]).2.items.map Prod.fst).Nodup :=
  ⟨(c3_getlogger_registry { items := [] } "a").1,
    (c3_getlogger_registry { items := [] } "a").2.2.1,
    (c3_getlogger_registry { items := [] } "a").2.2.2.2 (by decide)⟩

/-- C4: Formatter.Format performs exactly three substitutions, levelname
then message then asctime, each through strings.Replace with count one:
the leftmost occurrence only is rewritten, the substituted text is never
rescanned even when it contains a placeholder, a placeholder occurring
twice is replaced once, and an absent placeholder is silently ignored. -/
theorem c4_format_single_pass (f : Formatter) (now : String → String)
    (r : LogRecord) (s old new : List Char) (hold : old ≠ []) :
    Formatter.Format f now r
      = replaceFirstS
          (replaceFirstS
            (replaceFirstS f.fmt "{levelname}" (LogLevel.string r.level))
            "{message}"
            (if r.args.length > 0 then sprintf r.msg r.args else r.msg))
          "{asctime}" (now f.dateFmt)
    ∧ (hasOccurrence old s = false → replaceFirst s old new = s)
    ∧ (hasOccurrence old s = true →
        ∃ p q, s = p ++ old ++ q
          ∧ (∀ u v, u ++ old ++ v = s → p.length ≤ u.length)
          ∧ replaceFirst s old new = p ++ new ++ q) :=
  ⟨rfl, replaceFirst_no_occurrence s old new,
    replaceFirst_first_occurrence s old new hold⟩

/-- C4 witness: the theorem instantiated at a template holding the message
placeholder twice and a replacement text that itself contains the literal
placeholder. -/
theorem c4_witness :
    Formatter.Format (NewFormatter ["{message}", ""]) constNow
        (NewLogRecord INFO "app" "m" [])
      = replaceFirstS
          (replaceFirstS
            (replaceFirstS (NewFormatter ["{message}", ""]).fmt "{levelname}"
              (LogLevel.string (NewLogRecord INFO "app" "m" []).level))
            "{message}"
            (if (NewLogRecord INFO "app" "m" []).args.length > 0 then
              sprintf (NewLogRecord INFO "app" "m" []).msg
                (NewLogRecord INFO "app" "m" []).args
            else (NewLogRecord INFO "app" "m" []).msg))
          "{asctime}" (constNow (NewFormatter ["{message}", ""]).dateFmt)
    ∧ (hasOccurrence ("{message}").data ("{message}{message}").data = false →
        replaceFirst ("{message}{message}").data ("{message}").data
            ("X{message}").data
          = ("{message}{message}").data)
    ∧ (hasOccurrence ("{message}").data ("{message}{message}").data = true →
        ∃ p q, ("{message}{message}").data = p ++ ("{message}").data ++ q
          ∧ (∀ u v, u ++ ("{message}").data ++ v = ("{message}{message}").data
              → p.length ≤ u.length)
          ∧ replaceFirst ("{message}{message}").data ("{message}").data
                ("X{message}").data
              = p ++ ("X{message}").data ++ q) :=
  c4_format_single_pass (NewFormatter ["{message}", ""]) constNow
    (NewLogRecord INFO "app" "m" []) ("{message}{message}").data
    ("{message}").data ("X{message}").data (by decide)

/-- C5: the spec scenario - the formatter built from the template
levelname colon message with date format 2006-01-02 renders the ERROR
record with message template failed %s and argument disk full to exactly
ERROR: failed: disk full, whatever the current time is. -/
theorem c5_format_scenario (now : String → String) :
    Formatter.Format (NewFormatter ["{levelname}: {message}", "2006-01-02"]) now
      (NewLogRecord ERROR "x" "failed: %s" [GoValue.str "disk full"])
      = "ERROR: failed: disk full" := by
  show replaceFirstS
      (replaceFirstS
        (replaceFirstS "{levelname}: {message}" "{levelname}"
          (LogLevel.string ERROR))
        "{message}"
        (if (List.length [GoValue.str "disk full"]) > 0 then
          sprintf "failed: %s" [GoValue.str "disk full"] else "failed: %s"))
      "{asctime}" (now "2006-01-02")
    = "ERROR: failed: disk full"
  have h1 : replaceFirstS
      (replaceFirstS "{levelname}: {message}" "{levelname}"
        (LogLevel.string ERROR))
      "{message}"
      (if (List.length [GoValue.str "disk full"]) > 0 then
        sprintf "failed: %s" [GoValue.str "disk full"] else "failed: %s")
      = "ERROR: failed: disk full" := by decide
  rw [h1]
  show String.mk (replaceFirst ("ERROR: failed: disk full").data
      ("{asctime}").data (now "2006-01-02").data)
    = "ERROR: failed: disk full"
  rw [replaceFirst_no_occurrence ("ERROR: failed: disk full").data
    ("{asctime}").data ((now "2006-01-02").data) (by decide)]

/-- C6: every handler constructor snapshots the level and the two
templates of the config current at construction (NewLogHandler directly,
the stream, file and service constructors through it), and a BasicConfig
call touches only the config: every already constructed handler is left
unchanged. -/
theorem c6_config_snapshot_frame (w w2 : World) (conf : List (String × GoValue))
    (hok : basicConfigStep w conf = Except.ok w2) (cfg : Config)
    (stream : List Writer) (fn md : String) (svc : Service) :
    w2.handlers = w.handlers
    ∧ (∀ h ∈ w.handlers, h ∈ w2.handlers)
    ∧ (newLogHandlerStep w).1 = NewLogHandler w.config
    ∧ (NewLogHandler cfg).level = cfg.level
    ∧ (NewLogHandler cfg).formatter = NewFormatter [cfg.format, cfg.datefmt]
    ∧ (NewStreamHandler cfg stream).toLogHandler.level = cfg.level
    ∧ (NewStreamHandler cfg stream).toLogHandler.formatter
        = NewFormatter [cfg.format, cfg.datefmt]
    ∧ (NewFileHandler cfg fn md).toStreamHandler.toLogHandler.level = cfg.level
    ∧ (NewFileHandler cfg fn md).toStreamHandler.toLogHandler.formatter
        = NewFormatter [cfg.format, cfg.datefmt]
    ∧ (NewServiceHandler cfg svc).toLogHandler.level = cfg.level
    ∧ (NewServiceHandler cfg svc).toLogHandler.formatter
        = NewFormatter [cfg.format, cfg.datefmt] := by
  have hw : w2.handlers = w.handlers := by
    unfold basicConfigStep at hok
    cases hbc : BasicConfig w.config conf with
    | ok c =>
      rw [hbc] at hok
      simp only [Except.map] at hok
      injection hok with h3
      rw [← h3]
    | error e =>
      rw [hbc] at hok
      simp only [Except.map] at hok
      exact Except.noConfusion hok
  exact ⟨hw, fun h hm => by rw [hw]; exact hm, rfl, rfl, rfl, rfl, rfl, rfl,
    rfl, rfl, rfl⟩

/-- C6 witness: overwriting the template via BasicConfig on the sample
world leaves the already constructed handler list unchanged, while the
snapshot equations hold at the initial config. -/
theorem c6_witness :
    sampleWorldX.handlers = sampleWorld.handlers
    ∧ (NewLogHandler initialConfig).level = initialConfig.level
    ∧ (NewLogHandler initialConfig).formatter
        = NewFormatter [initialConfig.format, initialConfig.datefmt] := by
  have h := c6_config_snapshot_frame sampleWorld sampleWorldX
    [("format", GoValue.str "X")] (by rfl) initialConfig [] "f" "a" 0
  exact ⟨h.1, h.2.2.2.1, h.2.2.2.2.1⟩

/-- C7: the Log dispatch never reads the logger level field - changing it
via SetLevel, or swapping in any logger equal except for that field,
yields the identical trace. -/
theorem c7_log_ignores_logger_level (l : Logger) (lv level : LogLevel)
    (msg : String) (args : List GoValue) :
    Logger.Log (Logger.SetLevel l lv) level msg args
        = Logger.Log l level msg args
    ∧ (∀ l2 : Logger, l.name = l2.name → l.handlers = l2.handlers →
        Logger.Log l level msg args = Logger.Log l2 level msg args) := by
  refine ⟨rfl, ?_⟩
  intro l2 hn hh
  simp only [Logger.Log, hn, hh]

/-- C7 witness: the sample logger and its copy with level 9 produce the
identical trace. -/
theorem c7_witness :
    Logger.Log sampleLogger INFO "m" [] = Logger.Log sampleLoggerHigh INFO "m" [] :=
  (c7_log_ignores_logger_level sampleLogger 9 INFO "m" []).2
    sampleLoggerHigh rfl rfl

/-- C8: ServiceHandler.Emit forwards the formatted line to exactly one
severity operation, chosen solely by the record level - WARNING to the
warn operation, ERROR to the error operation, and every other level,
DEBUG, INFO, CRITICAL and FATAL included, to the info operation. -/
theorem c8_service_emit_routing (h : ServiceHandler) (now : String → String)
    (r : LogRecord) :
    (LogRecord.GetLevel r = WARNING →
      ServiceHandler.Emit h now r
        = ServiceCall.warning (LogHandler.Format h.toLogHandler now r))
    ∧ (LogRecord.GetLevel r = ERROR →
      ServiceHandler.Emit h now r
        = ServiceCall.error (LogHandler.Format h.toLogHandler now r))
    ∧ (LogRecord.GetLevel r ≠ WARNING → LogRecord.GetLevel r ≠ ERROR →
      ServiceHandler.Emit h now r
        = ServiceCall.info (LogHandler.Format h.toLogHandler now r))
    ∧ (∀ r2 : LogRecord, LogRecord.GetLevel r2 = LogRecord.GetLevel r →
        severityTag (ServiceHandler.Emit h now r2)
          = severityTag (ServiceHandler.Emit h now r)) := by
  refine ⟨?_, ?_, ?_, ?_⟩
  · intro hw
    simp [ServiceHandler.Emit, hw]
  · intro he
    simp [ServiceHandler.Emit, he, ERROR, WARNING]
  · intro h1 h2
    simp [ServiceHandler.Emit, h1, h2]
  · intro r2 h12
    by_cases hw : LogRecord.GetLevel r = WARNING
    · simp only [ServiceHandler.Emit, h12, if_pos hw]
      rfl
    · by_cases he : LogRecord.GetLevel r = ERROR
      · simp only [ServiceHandler.Emit, h12, if_neg hw, if_pos he]
        rfl
      · simp only [ServiceHandler.Emit, h12, if_neg hw, if_neg he]
        rfl

/-- C8 witness: a CRITICAL record is routed to the info operation of the
service logger. -/
theorem c8_witness :
    ServiceHandler.Emit svcHandler constNow (NewLogRecord CRITICAL "x" "m" [])
      = ServiceCall.info (LogHandler.Format svcHandler.toLogHandler constNow
          (NewLogRecord CRITICAL "x" "m" [])) :=
  (c8_service_emit_routing svcHandler constNow
    (NewLogRecord CRITICAL "x" "m" [])).2.2.1 (by decide) (by decide)

/-- C9: LogHandler.Handle calls Emit unconditionally - the write it
performs is the Emit write, it never compares the record against the own
threshold, so a handler invoked directly emits even a record below it. -/
theorem c9_handle_unconditional (h : LogHandler) (now : String → String)
    (r : LogRecord) (lv : LogLevel) :
    LogHandler.Handle h now r = LogHandler.Emit h now r
    ∧ LogHandler.Handle h now r = (h.logger, LogHandler.Format h now r ++ "\n")
    ∧ LogHandler.Handle (LogHandler.SetLevel h lv) now r
        = (h.logger, LogHandler.Format h now r ++ "\n") :=
  ⟨rfl, rfl, rfl⟩

/-- C10: BasicConfig fails (Go panics) on a recognized key bound to a
value of the wrong dynamic type - filename bound to an int fails the
string type assertion - while every mapping whose recognized keys carry
correctly typed values is processed without failure. -/
theorem c10_basicconfig_type_assertions (cfg : Config)
    (conf : List (String × GoValue)) (h : wellTypedConf conf) :
    BasicConfig initialConfig [("filename", GoValue.int 3)]
        = Except.error "interface conversion"
    ∧ ∃ c2, BasicConfig cfg conf = Except.ok c2 :=
  ⟨by rfl, basicConfig_wellTyped conf h cfg⟩

/-- C10 witness: the int bound to filename errors, while the sample well
typed mapping is processed without failure. -/
theorem c10_witness :
    BasicConfig initialConfig [("filename", GoValue.int 3)]
        = Except.error "interface conversion"
    ∧ ∃ c2, BasicConfig initialConfig sampleConf = Except.ok c2 :=
  c10_basicconfig_type_assertions initialConfig sampleConf (by decide)

end Spoor
